import Mathlib

/-!
Verification of the AgentMail node core against its sources.

The Python sources are embedded shallowly:
* bytes are `List Nat` with every element `< 256`; base64 text is a
  `List Nat` of ASCII codes;
* the SQLite tables of `mailbox.py` and `relay_server.py` are lists of
  records, with `INSERT OR REPLACE` modelled as delete-then-append and
  `rowid` kept explicitly;
* network calls (`httpx` in `router.py`) are oracles passed in as plain
  values or functions;
* the PyNaCl primitives (an external library) are modelled as an ideal
  signature scheme at the symbolic level.
-/

namespace AgentMail

/-! ## Base64 (Python `base64.b64encode` / `urlsafe_b64encode` / `b64decode`)

`crypto.py` and `router.py` use Python's `base64` module.  Bytes and the
produced ASCII text are both `List Nat`.  Decoding is modelled on valid
standard-alphabet input, which is the only input the router ever decodes
(`b64decode(peer["pubkey"])` where the pubkey was produced by
`b64encode`). -/

/-- Sextet value (0–63) to ASCII code in the standard base64 alphabet. -/
def b64char (v : Nat) : Nat :=
  if v < 26 then 65 + v
  else if v < 52 then 97 + (v - 26)
  else if v < 62 then 48 + (v - 52)
  else if v = 62 then 43
  else 47

/-- Sextet value to ASCII code in the URL-safe alphabet: as standard but
`62 ↦ '-'` and `63 ↦ '_'`. -/
def urlsafeChar (v : Nat) : Nat :=
  if v = 62 then 45 else if v = 63 then 95 else b64char v

/-- ASCII code of the padding character `'='`. -/
def padChar : Nat := 61

/-- ASCII code back to sextet value (standard alphabet). -/
def b64inv (c : Nat) : Nat :=
  if 65 ≤ c ∧ c ≤ 90 then c - 65
  else if 97 ≤ c ∧ c ≤ 122 then 26 + (c - 97)
  else if 48 ≤ c ∧ c ≤ 57 then 52 + (c - 48)
  else if c = 43 then 62
  else if c = 47 then 63
  else 0

/-- Base64 encoding of a byte list with a given alphabet, including the
`'='` padding Python emits. -/
def b64encodeWith (alpha : Nat → Nat) : List Nat → List Nat
  | [] => []
  | [a] => [alpha (a / 4), alpha (a % 4 * 16), padChar, padChar]
  | [a, b] => [alpha (a / 4), alpha (a % 4 * 16 + b / 16), alpha (b % 16 * 4), padChar]
  | a :: b :: c :: rest =>
      alpha (a / 4) :: alpha (a % 4 * 16 + b / 16) :: alpha (b % 16 * 4 + c / 64) ::
        alpha (c % 64) :: b64encodeWith alpha rest

/-- Python `base64.b64encode`. -/
def b64encode (bytes : List Nat) : List Nat := b64encodeWith b64char bytes

/-- Python `base64.urlsafe_b64encode`. -/
def urlsafe_b64encode (bytes : List Nat) : List Nat := b64encodeWith urlsafeChar bytes

/-- Python `base64.b64decode` on well-formed standard-alphabet input. -/
def b64decode : List Nat → List Nat
  | w :: x :: y :: z :: rest =>
      if z = padChar then
        if y = padChar then [b64inv w * 4 + b64inv x / 16]
        else [b64inv w * 4 + b64inv x / 16, (b64inv x % 16 * 16 + b64inv y / 4)]
      else
        (b64inv w * 4 + b64inv x / 16) :: (b64inv x % 16 * 16 + b64inv y / 4) ::
          (b64inv y % 4 * 64 + b64inv z) :: b64decode rest
  | _ => []

/-- `Identity.fingerprint` (crypto.py lines 65–69): the first 16 characters
of the URL-safe base64 encoding of the raw verify-key bytes. -/
def Identity.fingerprint (verify_key : List Nat) : List Nat :=
  (urlsafe_b64encode verify_key).take 16

/-- `Identity.pubkey_b64` (crypto.py lines 57–59): standard base64 of the
verify-key bytes; this is the string cached in a peer record's `pubkey`. -/
def Identity.pubkey_b64 (verify_key : List Nat) : List Nat := b64encode verify_key

/-- The recipient fingerprint `Router._deposit_to_relay` computes
(router.py line 145): `urlsafe_b64encode(b64decode(peer["pubkey"]))[:16]`. -/
def deposit_recipient_fp (peer_pubkey_b64 : List Nat) : List Nat :=
  (urlsafe_b64encode (b64decode peer_pubkey_b64)).take 16

/-! ## Identity signing (crypto.py lines 71–85)

`sign` and `verify` call into the external PyNaCl Ed25519 primitives, modelled
here as an ideal (symbolic) signature scheme: a signature blob is characterised
by the verify key that produced it and the exact bytes it signed, and `verify`
accepts exactly that blob.  The `try/except` of `Identity.verify`, which turns
every structural or cryptographic failure into `False` without surfacing an
exception, is modelled by totality: non-signature or non-key inputs take the
catch-all branch. -/

structure SigningKey where
  seed : Nat
deriving DecidableEq

/-- The verify key derived from a signing key (symbolic). -/
def SigningKey.verify_key (sk : SigningKey) : Nat := sk.seed

/-- A base64 wire string as the structure it decodes to: a well-formed
detached signature, a well-formed verify key, or malformed input (bad base64
or wrong size). -/
inductive Wire where
  | sig (vk : Nat) (data : List Nat) : Wire
  | key (vk : Nat) : Wire
  | malformed (text : String) : Wire
deriving DecidableEq

/-- `Identity.sign` (crypto.py lines 71–74): detached signature over `data`,
returned base64-encoded. -/
def Identity.sign (sk : SigningKey) (data : List Nat) : Wire :=
  .sig sk.verify_key data

/-- The base64 of this identity's verify key, as a wire value. -/
def SigningKey.pubkey (sk : SigningKey) : Wire := .key sk.verify_key

/-- `Identity.verify` (crypto.py lines 76–85): decode the signature and key,
check the signature; any failure returns `false`. -/
def Identity.verify (data : List Nat) (signature_b64 : Wire) (pubkey_b64 : Wire) : Bool :=
  match signature_b64, pubkey_b64 with
  | .sig vk d, .key k => vk == k && d == data
  | _, _ => false

/-! ## Data model (models.py) -/

structure AgentInfo where
  name : String := "default"
  capabilities : List String := []
  requires_human_approval : Bool := false
deriving DecidableEq

structure MessagePayload where
  intent : String := "human_message"
  subject : String := ""
  body : String := ""
  agent : Option AgentInfo := none
  metadata : List (String × String) := []
deriving DecidableEq

structure MessageEnvelope where
  v : Nat := 0
  msg_id : String
  thread_id : Option String := none
  from_addr : String
  to_addr : String
  sent_at : String
  ttl_sec : Nat := 604800
  signature : Option String := none
  encrypted : Bool := false
  payload : MessagePayload
deriving DecidableEq

structure PeerInfo where
  node_id : String
  node_name : String
  address : String
  host : String
  port : Nat
  pubkey : String
  encrypt_pubkey : String
  last_seen : String
deriving DecidableEq

/-! ## Mailbox (mailbox.py): the SQLite tables as lists of rows

`INSERT OR REPLACE` on a `TEXT PRIMARY KEY` deletes the conflicting row and
inserts a fresh one, so it is modelled as filter-out-then-append; the implicit
`rowid` of `outbox_queue` is tracked explicitly with a monotone allocator
(SQLite gives a replacement row a rowid that sorts after every surviving
row). -/

structure MessageRecord where
  msg_id : String
  thread_id : Option String
  from_addr : String
  to_addr : String
  sent_at : String
  subject : String
  intent : String
  body : String
  envelope_json : MessageEnvelope
  encrypted : Bool
  direction : String
  status : String
deriving DecidableEq

structure OutboxRow where
  rowid : Nat
  msg_id : String
  to_addr : String
  envelope_json : MessageEnvelope
  attempts : Nat
  next_retry : Option String
  status : String
deriving DecidableEq

structure Mailbox where
  messages : List MessageRecord
  peers : List PeerInfo
  outbox_queue : List OutboxRow
  next_rowid : Nat
deriving DecidableEq

/-- The row `Mailbox.store_message` writes for an envelope (the column list of
mailbox.py lines 63–66). -/
def Mailbox.message_row (envelope : MessageEnvelope)
    (direction : String) (status : String) : MessageRecord :=
  { msg_id := envelope.msg_id
    thread_id := envelope.thread_id
    from_addr := envelope.from_addr
    to_addr := envelope.to_addr
    sent_at := envelope.sent_at
    subject := envelope.payload.subject
    intent := envelope.payload.intent
    body := envelope.payload.body
    envelope_json := envelope
    encrypted := envelope.encrypted
    direction := direction
    status := status }

/-- `Mailbox.store_message` (mailbox.py lines 61–82): `INSERT OR REPLACE INTO
messages` keyed on `msg_id`.  The Python default for `status` is
`"delivered"`; callers here always pass it explicitly. -/
def Mailbox.store_message (db : Mailbox) (envelope : MessageEnvelope)
    (direction : String) (status : String) : Mailbox :=
  { db with messages :=
      db.messages.filter (fun r => r.msg_id ≠ envelope.msg_id) ++
        [Mailbox.message_row envelope direction status] }

/-- `Mailbox.get_message` (mailbox.py lines 97–101):
`SELECT * FROM messages WHERE msg_id = ?`, first row or nothing. -/
def Mailbox.get_message (db : Mailbox) (msg_id : String) : Option MessageRecord :=
  db.messages.find? (fun r => r.msg_id = msg_id)

/-- `Mailbox.upsert_peer` (mailbox.py lines 103–119): `INSERT OR REPLACE INTO
peers` keyed on `node_id`. -/
def Mailbox.upsert_peer (db : Mailbox) (peer : PeerInfo) : Mailbox :=
  { db with peers := db.peers.filter (fun p => p.node_id ≠ peer.node_id) ++ [peer] }

/-- `Mailbox.get_peer_by_address` (mailbox.py lines 127–131). -/
def Mailbox.get_peer_by_address (db : Mailbox) (address : String) : Option PeerInfo :=
  db.peers.find? (fun p => p.address = address)

/-- `Mailbox.queue_outbox` (mailbox.py lines 133–139): `INSERT OR REPLACE INTO
outbox_queue (msg_id, to_addr, envelope_json, status) VALUES (?, ?, ?,
'pending')`.  `attempts` and `next_retry` are absent from the column list, so
the inserted row takes the schema defaults `0` and `NULL`, and the replacement
row gets a fresh rowid. -/
def Mailbox.queue_outbox (db : Mailbox) (envelope : MessageEnvelope) : Mailbox :=
  { db with
    outbox_queue := db.outbox_queue.filter (fun r => r.msg_id ≠ envelope.msg_id) ++
      [{ rowid := db.next_rowid
         msg_id := envelope.msg_id
         to_addr := envelope.to_addr
         envelope_json := envelope
         attempts := 0
         next_retry := none
         status := "pending" }]
    next_rowid := db.next_rowid + 1 }

/-- `Mailbox.get_pending_outbox` (mailbox.py lines 141–145):
`SELECT * FROM outbox_queue WHERE status = 'pending' ORDER BY rowid`. -/
def Mailbox.get_pending_outbox (db : Mailbox) : List OutboxRow :=
  (db.outbox_queue.filter (fun r => r.status = "pending")).mergeSort
    (fun a b => a.rowid ≤ b.rowid)

/-- `Mailbox.mark_outbox_sent` (mailbox.py lines 147–151). -/
def Mailbox.mark_outbox_sent (db : Mailbox) (msg_id : String) : Mailbox :=
  { db with outbox_queue :=
      (db.outbox_queue.map
        (fun r => if r.msg_id = msg_id then { r with status := "sent" } else r)) }

/-- `Mailbox.mark_outbox_failed` (mailbox.py lines 153–158):
`UPDATE outbox_queue SET status = 'pending', attempts = ? WHERE msg_id = ?`. -/
def Mailbox.mark_outbox_failed (db : Mailbox) (msg_id : String) (attempts : Nat) : Mailbox :=
  { db with outbox_queue :=
      (db.outbox_queue.map
        (fun r => if r.msg_id = msg_id then { r with status := "pending", attempts := attempts }
          else r)) }

/-! ## Router (router.py)

The `httpx` network calls are oracles supplied as values: what the relay
directory returned, and whether the direct POST and the relay deposit came
back with status 200. -/

/-- Outcome of `self.identity.decrypt` followed by
`MessagePayload.model_validate_json` inside the `try` of `Router.receive`:
the recovered payload, or `none` when either step raises. -/
def DecryptOracle := String → Option MessagePayload

/-- The decryption block of `Router.receive` (router.py lines 215–223): when
`encrypted` is set and the intent is the `encrypted` sentinel, try to open the
sealed body; on success replace the payload in place and clear `encrypted`; on
failure keep the envelope as received. -/
def Router.decrypt_step (decrypt : DecryptOracle)
    (envelope : MessageEnvelope) : MessageEnvelope :=
  if envelope.encrypted && envelope.payload.intent == "encrypted" then
    match decrypt envelope.payload.body with
    | some original_payload =>
        { envelope with payload := original_payload, encrypted := false }
    | none => envelope
  else envelope

/-- `Router.receive` (router.py lines 204–232).  Signature verification only
logs a warning (no state effect and the message is kept); decryption rewrites
the envelope in place; storing is skipped exactly when an inbound record
already exists for the msg_id. -/
def Router.receive (decrypt : DecryptOracle) (db : Mailbox)
    (envelope : MessageEnvelope) : Mailbox × MessageEnvelope :=
  let envelope := Router.decrypt_step decrypt envelope
  match db.get_message envelope.msg_id with
  | some existing =>
      if existing.direction = "inbound" then (db, envelope)
      else (db.store_message envelope "inbound" "delivered", envelope)
  | none => (db.store_message envelope "inbound" "delivered", envelope)

/-- The registry entry `Router._lookup_from_relay` receives on HTTP 200. -/
structure LookupResult where
  fingerprint : String
  pubkey : String
  encrypt_pubkey : String
deriving DecidableEq

/-- Network outcomes for one `Router.send` call. -/
structure SendNet where
  lookup_result : Option LookupResult
  direct_ok : Bool
  deposit_ok : Bool
deriving DecidableEq

/-- The identity operations `Router.send` uses, as pure functions on per-call
inputs: `sign` over the canonical pre-image string and `encrypt_for` (the
payload JSON sealed to a recipient encryption key). -/
structure IdentityOps where
  sign : String → String
  encrypt_for : MessagePayload → String → String

/-- `Router.send` (router.py lines 26–85): compose and sign the envelope,
resolve the peer (locally, then via the relay directory), optionally seal the
payload, store `sending`, then try direct delivery, relay deposit, and the
outbox queue in that order.  `msg_id` and `sent_at` stand for the fresh
`uuid4()` and `now_iso()` the envelope constructor draws; `sent_at` also
stands in for the `now_iso()` stamped on a directory-resolved peer. -/
def Router.send (ident : IdentityOps) (relay_configured : Bool) (net : SendNet)
    (node_address : String) (db : Mailbox) (msg_id sent_at : String)
    (to_addr subject body intent : String) (encrypt : Bool) :
    Mailbox × MessageEnvelope :=
  let envelope : MessageEnvelope :=
    { msg_id := msg_id, from_addr := node_address, to_addr := to_addr, sent_at := sent_at,
      payload := { intent := intent, subject := subject, body := body } }
  let sign_data := msg_id ++ ":" ++ node_address ++ ":" ++ to_addr ++ ":" ++ sent_at
  let envelope := { envelope with signature := some (ident.sign sign_data) }
  let peer0 := db.get_peer_by_address to_addr
  let name := (to_addr.splitOn "@").headD to_addr
  let lookedUp :=
    match peer0 with
    | some p => (db, some p)
    | none =>
        if relay_configured then
          match net.lookup_result with
          | some data =>
              let cached : PeerInfo :=
                { node_id := data.fingerprint, node_name := name, address := to_addr,
                  host := "", port := 0, pubkey := data.pubkey,
                  encrypt_pubkey := data.encrypt_pubkey, last_seen := sent_at }
              (db.upsert_peer cached, some cached)
          | none => (db, none)
        else (db, none)
  let db := lookedUp.1
  let peer := lookedUp.2
  let envelope :=
    match peer with
    | some p =>
        if encrypt then
          { envelope with
            payload := { intent := "encrypted", subject := "[encrypted]",
                         body := ident.encrypt_for envelope.payload p.encrypt_pubkey },
            encrypted := true }
        else envelope
    | none => envelope
  let db := db.store_message envelope "outbound" "sending"
  let delivered := peer.isSome && net.direct_ok
  if !delivered && relay_configured && peer.isSome && net.deposit_ok then
    (db.store_message envelope "outbound" "relayed", envelope)
  else if delivered then
    (db.store_message envelope "outbound" "delivered", envelope)
  else
    ((db.queue_outbox envelope).store_message envelope "outbound" "queued", envelope)

/-- Response body of `POST /v0/send` (main.py lines 190–202). -/
structure SendResponse where
  status : String
  msg_id : String
  delivered : Bool
deriving DecidableEq

/-- `send_message` (main.py lines 190–202): run `Router.send`, then report
`delivered` as "the msg_id is not among the pending outbox entries". -/
def send_message (ident : IdentityOps) (relay_configured : Bool) (net : SendNet)
    (node_address : String) (db : Mailbox) (msg_id sent_at : String)
    (req_to req_subject req_body req_intent : String) (req_encrypt : Bool) :
    Mailbox × SendResponse :=
  let sent := Router.send ident relay_configured net node_address db msg_id sent_at
    req_to req_subject req_body req_intent req_encrypt
  (sent.1, { status := "ok", msg_id := sent.2.msg_id,
             delivered :=
               !((sent.1.get_pending_outbox).map (fun item => item.msg_id)).contains
                 sent.2.msg_id })

/-- Per-message network outcomes for one `Router.retry_queued` tick, keyed by
msg_id: whether the direct POST and the relay deposit return 200. -/
structure RetryNet where
  direct_ok : String → Bool
  deposit_ok : String → Bool

/-- The body of the `for item in pending` loop of `Router.retry_queued`
(router.py lines 237–252).  Note the `elif self.relay_url` branch: when the
relay deposit fails nothing is written, and `mark_outbox_failed` runs only in
the no-relay branch; a missing peer leaves the item untouched. -/
def Router.retry_item (relay_configured : Bool) (net : RetryNet) (db : Mailbox)
    (item : OutboxRow) : Mailbox :=
  let envelope := item.envelope_json
  match db.get_peer_by_address envelope.to_addr with
  | some _peer =>
      if net.direct_ok envelope.msg_id then
        (db.mark_outbox_sent envelope.msg_id).store_message envelope "outbound" "delivered"
      else if relay_configured then
        if net.deposit_ok envelope.msg_id then
          (db.mark_outbox_sent envelope.msg_id).store_message envelope "outbound" "relayed"
        else db
      else db.mark_outbox_failed envelope.msg_id (item.attempts + 1)
  | none => db

/-- `Router.retry_queued` (router.py lines 234–252): snapshot the pending
outbox, then process each entry in FIFO order. -/
def Router.retry_queued (relay_configured : Bool) (net : RetryNet) (db : Mailbox) : Mailbox :=
  (db.get_pending_outbox).foldl (Router.retry_item relay_configured net) db

/-! ## Relay store (relay_server.py)

`deposited_at` and `expires_at` are `time.time()` floats compared with `<`;
they are modelled as naturals, which preserves every comparison the claims
mention.  `pickup`'s SQL projects away two columns; the model returns whole
rows. -/

structure HeldMessage where
  msg_id : String
  recipient_fingerprint : String
  sender_fingerprint : String
  encrypted_envelope : String
  signature : String
  deposited_at : Nat
  expires_at : Nat
deriving DecidableEq

structure DepositRequest where
  msg_id : String
  recipient_fingerprint : String
  sender_fingerprint : String
  encrypted_envelope : String
  signature : String
  ttl_sec : Nat := 604800
deriving DecidableEq

/-- `RelayStore.deposit` (relay_server.py lines 91–108): `INSERT OR REPLACE`
keyed on `msg_id`, stamping `deposited_at = now` and
`expires_at = now + ttl_sec`. -/
def RelayStore.deposit (db : List HeldMessage) (req : DepositRequest)
    (now : Nat) : List HeldMessage :=
  db.filter (fun r => r.msg_id ≠ req.msg_id) ++
    [{ msg_id := req.msg_id
       recipient_fingerprint := req.recipient_fingerprint
       sender_fingerprint := req.sender_fingerprint
       encrypted_envelope := req.encrypted_envelope
       signature := req.signature
       deposited_at := now
       expires_at := now + req.ttl_sec }]

/-- `RelayStore.pickup` (relay_server.py lines 110–119):
`WHERE recipient_fingerprint = ? AND deposited_at > ? AND expires_at > ?
ORDER BY deposited_at ASC`, with `?` = the recipient, `since`, and
`time.time()`. -/
def RelayStore.pickup (db : List HeldMessage) (recipient_fingerprint : String)
    (since : Nat) (now : Nat) : List HeldMessage :=
  (db.filter (fun r => r.recipient_fingerprint = recipient_fingerprint ∧
      r.deposited_at > since ∧ r.expires_at > now)).mergeSort
    (fun a b => a.deposited_at ≤ b.deposited_at)

/-- `RelayStore.ack` (relay_server.py lines 121–131): with a non-empty id
list, `DELETE FROM held_messages WHERE msg_id IN (...) AND
recipient_fingerprint = ?`; an empty list deletes nothing. -/
def RelayStore.ack (db : List HeldMessage) (msg_ids : List String)
    (recipient_fingerprint : String) : List HeldMessage :=
  if msg_ids = [] then db
  else db.filter (fun r =>
    ¬(r.msg_id ∈ msg_ids ∧ r.recipient_fingerprint = recipient_fingerprint))

/-- `RelayStore.cleanup_expired` (relay_server.py lines 133–139):
`DELETE FROM held_messages WHERE expires_at < ?` with `?` = `time.time()`. -/
def RelayStore.cleanup_expired (db : List HeldMessage) (now : Nat) : List HeldMessage :=
  db.filter (fun r => ¬(r.expires_at < now))

end AgentMail

namespace AgentMail

theorem b64inv_b64char : ∀ v < 64, b64inv (b64char v) = v := by decide

theorem b64char_ne_pad : ∀ v < 64, b64char v ≠ padChar := by decide

/-- Decoding inverts encoding on byte lists. -/
theorem b64decode_b64encode (l : List Nat) (h : ∀ b ∈ l, b < 256) :
    b64decode (b64encode l) = l := by
  unfold b64encode
  induction l using b64encodeWith.induct b64char with
  | case1 => simp [b64encodeWith, b64decode]
  | case2 a =>
      have ha : a < 256 := h a (by simp)
      have h1 : b64inv (b64char (a / 4)) = a / 4 := b64inv_b64char _ (by omega)
      have h2 : b64inv (b64char (a % 4 * 16)) = a % 4 * 16 := b64inv_b64char _ (by omega)
      simp [b64encodeWith, b64decode, h1, h2]
      omega
  | case3 a b =>
      have ha : a < 256 := h a (by simp)
      have hb : b < 256 := h b (by simp)
      have hy : b64char (b % 16 * 4) ≠ padChar := b64char_ne_pad _ (by omega)
      have h1 : b64inv (b64char (a / 4)) = a / 4 := b64inv_b64char _ (by omega)
      have h2 : b64inv (b64char (a % 4 * 16 + b / 16)) = a % 4 * 16 + b / 16 :=
        b64inv_b64char _ (by omega)
      have h3 : b64inv (b64char (b % 16 * 4)) = b % 16 * 4 := b64inv_b64char _ (by omega)
      simp [b64encodeWith, b64decode, hy, h1, h2, h3]
      constructor <;> omega
  | case4 a b c rest ih =>
      have ha : a < 256 := h a (by simp)
      have hb : b < 256 := h b (by simp)
      have hc : c < 256 := h c (by simp)
      have hz : b64char (c % 64) ≠ padChar := b64char_ne_pad _ (by omega)
      have h1 : b64inv (b64char (a / 4)) = a / 4 := b64inv_b64char _ (by omega)
      have h2 : b64inv (b64char (a % 4 * 16 + b / 16)) = a % 4 * 16 + b / 16 :=
        b64inv_b64char _ (by omega)
      have h3 : b64inv (b64char (b % 16 * 4 + c / 64)) = b % 16 * 4 + c / 64 :=
        b64inv_b64char _ (by omega)
      have h4 : b64inv (b64char (c % 64)) = c % 64 := b64inv_b64char _ (by omega)
      have ih' : b64decode (b64encodeWith b64char rest) = rest :=
        ih (fun x hx => h x (by simp [hx]))
      simp [b64encodeWith, b64decode, hz, h1, h2, h3, h4, ih']
      refine ⟨by omega, by omega, by omega⟩

/-! ## General list helpers -/

theorem find?_filter_of_imp {α : Type} (l : List α) (p q : α → Bool)
    (h : ∀ x, p x = true → q x = true) :
    (l.filter q).find? p = l.find? p := by
  induction l with
  | nil => rfl
  | cons a t ih =>
      by_cases hq : q a = true
      · rw [List.filter_cons_of_pos hq]
        by_cases hp : p a = true
        · rw [List.find?_cons_of_pos _ hp, List.find?_cons_of_pos _ hp]
        · rw [List.find?_cons_of_neg _ hp, List.find?_cons_of_neg _ hp, ih]
      · have hp : ¬p a = true := fun hpa => hq (h a hpa)
        rw [List.filter_cons_of_neg (by simpa using hq), List.find?_cons_of_neg _ hp, ih]

theorem countP_eq_one_of_key_unique {α : Type} (key : α → String) :
    ∀ (l : List α), l.Pairwise (fun a b => key a ≠ key b) →
      ∀ r ∈ l, ∀ (p : α → Bool), p r = true →
        (∀ x ∈ l, p x = true → key x = key r) → l.countP p = 1 := by
  intro l
  induction l with
  | nil => intro _ r hr; cases hr
  | cons a t ih =>
      intro hpw r hr p hp himp
      rcases List.pairwise_cons.mp hpw with ⟨ha, ht⟩
      rcases List.mem_cons.mp hr with rfl | hrt
      · have h0 : t.countP p = 0 := by
          rw [List.countP_eq_zero]
          intro x hx hpx
          exact ha x hx (himp x (List.mem_cons_of_mem _ hx) hpx).symm
        rw [List.countP_cons, h0, if_pos hp]
      · have hpa : ¬p a = true := fun hpa =>
          ha r hrt (himp a (List.mem_cons_self _ _) hpa)
        rw [List.countP_cons, if_neg hpa,
          ih ht r hrt p hp (fun x hx hpx => himp x (List.mem_cons_of_mem _ hx) hpx)]

theorem getLast?_of_max {α : Type} (key : α → Nat) (x : α) :
    ∀ (s : List α), s.Pairwise (fun a b => key a ≤ key b) → x ∈ s →
      (∀ y ∈ s, y = x ∨ key y < key x) → s.getLast? = some x := by
  intro s
  induction s with
  | nil => intro _ hx; cases hx
  | cons a t ih =>
      intro hpw hx hmax
      rcases List.pairwise_cons.mp hpw with ⟨ha, ht⟩
      cases t with
      | nil =>
          rcases List.mem_cons.mp hx with rfl | h
          · rfl
          · cases h
      | cons b t' =>
          rw [List.getLast?_cons_cons]
          have hxt : x ∈ b :: t' := by
            rcases List.mem_cons.mp hx with rfl | h
            · by_contra hxt
              have hb : b = x ∨ key b < key x :=
                hmax b (List.mem_cons_of_mem _ (List.mem_cons_self _ _))
              rcases hb with rfl | hlt
              · exact hxt (List.mem_cons_self _ _)
              · exact absurd (ha b (List.mem_cons_self _ _)) (by omega)
            · exact h
          exact ih ht hxt (fun y hy => hmax y (List.mem_cons_of_mem _ hy))

/-! ## Mailbox operation lemmas -/

theorem store_message_outbox (db : Mailbox) (e : MessageEnvelope) (d s : String) :
    (db.store_message e d s).outbox_queue = db.outbox_queue := rfl

theorem store_message_peers (db : Mailbox) (e : MessageEnvelope) (d s : String) :
    (db.store_message e d s).peers = db.peers := rfl

theorem upsert_peer_outbox (db : Mailbox) (p : PeerInfo) :
    (db.upsert_peer p).outbox_queue = db.outbox_queue := rfl

theorem upsert_peer_messages (db : Mailbox) (p : PeerInfo) :
    (db.upsert_peer p).messages = db.messages := rfl

theorem mark_outbox_sent_messages (db : Mailbox) (m : String) :
    (db.mark_outbox_sent m).messages = db.messages := rfl

theorem mark_outbox_failed_messages (db : Mailbox) (m : String) (k : Nat) :
    (db.mark_outbox_failed m k).messages = db.messages := rfl

theorem mark_outbox_sent_peers (db : Mailbox) (m : String) :
    (db.mark_outbox_sent m).peers = db.peers := rfl

theorem mark_outbox_failed_peers (db : Mailbox) (m : String) (k : Nat) :
    (db.mark_outbox_failed m k).peers = db.peers := rfl

theorem get_message_store_self (db : Mailbox) (e : MessageEnvelope) (d s : String) :
    (db.store_message e d s).get_message e.msg_id =
      some (Mailbox.message_row e d s) := by
  unfold Mailbox.store_message Mailbox.get_message
  rw [List.find?_append]
  have h1 : ((db.messages.filter (fun r => r.msg_id ≠ e.msg_id)).find?
      (fun r => r.msg_id = e.msg_id)) = none := by
    rw [List.find?_eq_none]
    intro x hx
    have hne := (List.mem_filter.mp hx).2
    simp only [decide_eq_true_eq] at hne ⊢
    exact hne
  rw [h1]
  simp [Mailbox.message_row]

theorem get_message_store_other (db : Mailbox) (e : MessageEnvelope) (d s : String)
    (m : String) (hne : m ≠ e.msg_id) :
    (db.store_message e d s).get_message m = db.get_message m := by
  unfold Mailbox.store_message Mailbox.get_message
  rw [List.find?_append]
  have h1 : ((db.messages.filter (fun r => r.msg_id ≠ e.msg_id)).find?
      (fun r => r.msg_id = m)) = db.messages.find? (fun r => r.msg_id = m) := by
    apply find?_filter_of_imp
    intro x hx
    simp only [decide_eq_true_eq] at hx ⊢
    rw [hx]; exact hne
  have h2 : (([Mailbox.message_row e d s] : List MessageRecord).find?
      (fun r => r.msg_id = m)) = none := by
    have hns : ¬e.msg_id = m := fun h => hne h.symm
    simp [Mailbox.message_row, hns]
  rw [h1, h2]
  cases db.messages.find? (fun r => r.msg_id = m) <;> rfl

/-! ## Receive-path lemmas -/

theorem decrypt_step_msg_id (decrypt : DecryptOracle) (e : MessageEnvelope) :
    (Router.decrypt_step decrypt e).msg_id = e.msg_id := by
  unfold Router.decrypt_step
  by_cases h : (e.encrypted && e.payload.intent == "encrypted") = true
  · rw [if_pos h]
    cases decrypt e.payload.body <;> rfl
  · rw [if_neg h]

theorem decrypt_step_of_some (decrypt : DecryptOracle) (e : MessageEnvelope)
    (p : MessagePayload) (henc : e.encrypted = true)
    (hint : e.payload.intent = "encrypted") (hd : decrypt e.payload.body = some p) :
    Router.decrypt_step decrypt e = { e with payload := p, encrypted := false } := by
  unfold Router.decrypt_step
  simp [henc, hint, hd]

theorem decrypt_step_of_none (decrypt : DecryptOracle) (e : MessageEnvelope)
    (hd : decrypt e.payload.body = none) :
    Router.decrypt_step decrypt e = e := by
  unfold Router.decrypt_step
  by_cases h : (e.encrypted && e.payload.intent == "encrypted") = true
  · rw [if_pos h, hd]
  · rw [if_neg h]

theorem receive_of_none (decrypt : DecryptOracle) (db : Mailbox) (e : MessageEnvelope)
    (h : db.get_message (Router.decrypt_step decrypt e).msg_id = none) :
    Router.receive decrypt db e =
      (db.store_message (Router.decrypt_step decrypt e) "inbound" "delivered",
       Router.decrypt_step decrypt e) := by
  simp only [Router.receive]
  rw [h]

theorem receive_of_inbound (decrypt : DecryptOracle) (db : Mailbox) (e : MessageEnvelope)
    (ex : MessageRecord)
    (h : db.get_message (Router.decrypt_step decrypt e).msg_id = some ex)
    (hdir : ex.direction = "inbound") :
    Router.receive decrypt db e = (db, Router.decrypt_step decrypt e) := by
  simp only [Router.receive]
  rw [h]
  simp [hdir]

theorem receive_of_other (decrypt : DecryptOracle) (db : Mailbox) (e : MessageEnvelope)
    (ex : MessageRecord)
    (h : db.get_message (Router.decrypt_step decrypt e).msg_id = some ex)
    (hdir : ¬ex.direction = "inbound") :
    Router.receive decrypt db e =
      (db.store_message (Router.decrypt_step decrypt e) "inbound" "delivered",
       Router.decrypt_step decrypt e) := by
  simp only [Router.receive]
  rw [h]
  simp [hdir]

theorem countP_inbound_store (db : Mailbox) (e1 : MessageEnvelope) :
    ((db.store_message e1 "inbound" "delivered").messages.countP
      (fun r => r.msg_id = e1.msg_id ∧ r.direction = "inbound")) = 1 := by
  unfold Mailbox.store_message
  rw [List.countP_append]
  have h0 : (db.messages.filter (fun r => r.msg_id ≠ e1.msg_id)).countP
      (fun r => r.msg_id = e1.msg_id ∧ r.direction = "inbound") = 0 := by
    rw [List.countP_eq_zero]
    intro x hx hpx
    have h1 := (List.mem_filter.mp hx).2
    simp only [decide_eq_true_eq] at h1 hpx
    exact h1 hpx.1
  rw [h0]
  simp [Mailbox.message_row]

/-! ## Claim C3 -/

/-- C3: idempotent ingest.  Under the message-log key invariant (at most one
row per msg_id), receiving the same envelope twice leaves exactly one inbound
record for its msg_id, and the second invocation returns without changing the
mailbox at all. -/
theorem c3_idempotent_ingest (decrypt : DecryptOracle) (db : Mailbox)
    (e : MessageEnvelope)
    (huniq : db.messages.Pairwise (fun a b => a.msg_id ≠ b.msg_id)) :
    (Router.receive decrypt (Router.receive decrypt db e).1 e).1 =
      (Router.receive decrypt db e).1 ∧
    ((Router.receive decrypt db e).1.messages.countP
      (fun r => r.msg_id = e.msg_id ∧ r.direction = "inbound")) = 1 := by
  have he : (Router.decrypt_step decrypt e).msg_id = e.msg_id :=
    decrypt_step_msg_id decrypt e
  have stored_case : Router.receive decrypt db e =
      (db.store_message (Router.decrypt_step decrypt e) "inbound" "delivered",
       Router.decrypt_step decrypt e) →
      ((Router.receive decrypt (Router.receive decrypt db e).1 e).1 =
        (Router.receive decrypt db e).1 ∧
      ((Router.receive decrypt db e).1.messages.countP
        (fun r => r.msg_id = e.msg_id ∧ r.direction = "inbound")) = 1) := by
    intro h1
    have hself := get_message_store_self db (Router.decrypt_step decrypt e)
      "inbound" "delivered"
    have h2 := receive_of_inbound decrypt
      (db.store_message (Router.decrypt_step decrypt e) "inbound" "delivered") e
      (Mailbox.message_row (Router.decrypt_step decrypt e) "inbound" "delivered")
      hself rfl
    constructor
    · simp [h1, h2]
    · rw [h1]
      rw [← he]
      exact countP_inbound_store db (Router.decrypt_step decrypt e)
  rcases hgm : db.get_message (Router.decrypt_step decrypt e).msg_id with _ | ex
  · exact stored_case (receive_of_none decrypt db e hgm)
  · by_cases hdir : ex.direction = "inbound"
    · have h1 := receive_of_inbound decrypt db e ex hgm hdir
      constructor
      · simp [h1]
      · have hgm' := hgm
        unfold Mailbox.get_message at hgm'
        have hmem : ex ∈ db.messages := List.mem_of_find?_eq_some hgm'
        have hid : ex.msg_id = e.msg_id := by
          have := List.find?_some hgm'
          simp only [decide_eq_true_eq] at this
          rw [← he]; exact this
        rw [h1]
        refine countP_eq_one_of_key_unique (fun r => r.msg_id) db.messages huniq
          ex hmem _ ?_ ?_
        · simp [hid, hdir]
        · intro x hx hpx
          simp only [decide_eq_true_eq] at hpx
          show x.msg_id = ex.msg_id
          rw [hpx.1, hid]
    · exact stored_case (receive_of_other decrypt db e ex hgm hdir)

/-- Witness for C3 on a concrete mailbox and envelope. -/
theorem c3_witness :
    (Router.receive (fun _ => none)
      (Router.receive (fun _ => none)
        ⟨[], [], [], 0⟩
        ⟨0, "m1", none, "a@a.local", "b@b.local", "t0", 604800, none, false,
          ⟨"human_message", "hi", "ping", none, []⟩⟩).1
      ⟨0, "m1", none, "a@a.local", "b@b.local", "t0", 604800, none, false,
        ⟨"human_message", "hi", "ping", none, []⟩⟩).1 =
      (Router.receive (fun _ => none)
        ⟨[], [], [], 0⟩
        ⟨0, "m1", none, "a@a.local", "b@b.local", "t0", 604800, none, false,
          ⟨"human_message", "hi", "ping", none, []⟩⟩).1 ∧
    ((Router.receive (fun _ => none)
        ⟨[], [], [], 0⟩
        ⟨0, "m1", none, "a@a.local", "b@b.local", "t0", 604800, none, false,
          ⟨"human_message", "hi", "ping", none, []⟩⟩).1.messages.countP
      (fun r => r.msg_id = "m1" ∧ r.direction = "inbound")) = 1 :=
  c3_idempotent_ingest (fun _ => none) ⟨[], [], [], 0⟩
    ⟨0, "m1", none, "a@a.local", "b@b.local", "t0", 604800, none, false,
      ⟨"human_message", "hi", "ping", none, []⟩⟩
    (by simp)

/-! ## Claim C9 -/

/-- C9: the inbound deduplication check only skips storing when the existing
record is itself inbound.  When the log holds an outbound record under the
same msg_id, `Router.receive` overwrites it through the upsert: afterwards the
record for that msg_id has direction `inbound` and the store-default status
`delivered`, and no outbound record with that msg_id remains. -/
theorem c9_inbound_overwrites_outbound (decrypt : DecryptOracle) (db : Mailbox)
    (e : MessageEnvelope) (r : MessageRecord)
    (hr : db.get_message (Router.decrypt_step decrypt e).msg_id = some r)
    (hdir : r.direction = "outbound") :
    (Router.receive decrypt db e).1.get_message e.msg_id =
      some (Mailbox.message_row (Router.decrypt_step decrypt e) "inbound" "delivered") ∧
    (Mailbox.message_row (Router.decrypt_step decrypt e) "inbound" "delivered").direction
      = "inbound" ∧
    (Mailbox.message_row (Router.decrypt_step decrypt e) "inbound" "delivered").status
      = "delivered" ∧
    ((Router.receive decrypt db e).1.messages.countP
      (fun x => x.msg_id = e.msg_id ∧ x.direction = "outbound")) = 0 := by
  have he : (Router.decrypt_step decrypt e).msg_id = e.msg_id :=
    decrypt_step_msg_id decrypt e
  have h1 := receive_of_other decrypt db e r hr (by rw [hdir]; decide)
  refine ⟨?_, rfl, rfl, ?_⟩
  · rw [h1]
    rw [← he]
    exact get_message_store_self db (Router.decrypt_step decrypt e)
      "inbound" "delivered"
  · rw [h1]
    show ((db.store_message (Router.decrypt_step decrypt e) "inbound"
      "delivered").messages.countP _) = 0
    unfold Mailbox.store_message
    rw [List.countP_append, List.countP_eq_zero.mpr, List.countP_eq_zero.mpr]
    · intro x hx
      simp only [List.mem_singleton] at hx
      subst hx
      simp [Mailbox.message_row]
    · intro x hx hpx
      have h2 := (List.mem_filter.mp hx).2
      simp only [decide_eq_true_eq] at h2 hpx
      rw [← he] at hpx
      exact h2 hpx.1

/-- Witness for C9: an outbound record for `m1` is overwritten by ingest. -/
theorem c9_witness :
    (Router.receive (fun _ => none)
      ⟨[⟨"m1", none, "a@a.local", "b@b.local", "t0", "hi", "human_message",
          "ping",
          ⟨0, "m1", none, "a@a.local", "b@b.local", "t0", 604800, none, false,
            ⟨"human_message", "hi", "ping", none, []⟩⟩,
          false, "outbound", "queued"⟩],
        [], [], 0⟩
      ⟨0, "m1", none, "a@a.local", "b@b.local", "t0", 604800, none, false,
        ⟨"human_message", "hi", "ping", none, []⟩⟩).1.get_message "m1" =
      some (Mailbox.message_row
        (Router.decrypt_step (fun _ => none)
          ⟨0, "m1", none, "a@a.local", "b@b.local", "t0", 604800, none, false,
            ⟨"human_message", "hi", "ping", none, []⟩⟩)
        "inbound" "delivered") ∧
    ((Router.receive (fun _ => none)
      ⟨[⟨"m1", none, "a@a.local", "b@b.local", "t0", "hi", "human_message",
          "ping",
          ⟨0, "m1", none, "a@a.local", "b@b.local", "t0", 604800, none, false,
            ⟨"human_message", "hi", "ping", none, []⟩⟩,
          false, "outbound", "queued"⟩],
        [], [], 0⟩
      ⟨0, "m1", none, "a@a.local", "b@b.local", "t0", 604800, none, false,
        ⟨"human_message", "hi", "ping", none, []⟩⟩).1.messages.countP
      (fun x => x.msg_id = "m1" ∧ x.direction = "outbound")) = 0 := by
  have h := c9_inbound_overwrites_outbound (fun _ => none)
    ⟨[⟨"m1", none, "a@a.local", "b@b.local", "t0", "hi", "human_message",
        "ping",
        ⟨0, "m1", none, "a@a.local", "b@b.local", "t0", 604800, none, false,
          ⟨"human_message", "hi", "ping", none, []⟩⟩,
        false, "outbound", "queued"⟩],
      [], [], 0⟩
    ⟨0, "m1", none, "a@a.local", "b@b.local", "t0", 604800, none, false,
      ⟨"human_message", "hi", "ping", none, []⟩⟩
    ⟨"m1", none, "a@a.local", "b@b.local", "t0", "hi", "human_message",
      "ping",
      ⟨0, "m1", none, "a@a.local", "b@b.local", "t0", 604800, none, false,
        ⟨"human_message", "hi", "ping", none, []⟩⟩,
      false, "outbound", "queued"⟩
    (by decide) (by decide)
  exact ⟨h.1, h.2.2.2⟩

/-! ## Claim C8 -/

/-- C8: on the receive path, for an envelope with `encrypted` set and the
`encrypted` sentinel intent: when opening the sealed payload succeeds the
payload is replaced in place and the `encrypted` flag cleared before storing;
when it fails the envelope is stored inbound with its sealed payload intact. -/
theorem c8_receive_decrypt (decrypt : DecryptOracle) (db : Mailbox)
    (e : MessageEnvelope)
    (henc : e.encrypted = true) (hint : e.payload.intent = "encrypted")
    (hfresh : db.get_message e.msg_id = none) :
    (∀ p, decrypt e.payload.body = some p →
      (Router.receive decrypt db e).2 = { e with payload := p, encrypted := false } ∧
      (Router.receive decrypt db e).1.get_message e.msg_id =
        some (Mailbox.message_row { e with payload := p, encrypted := false }
          "inbound" "delivered") ∧
      (Mailbox.message_row { e with payload := p, encrypted := false }
        "inbound" "delivered").encrypted = false) ∧
    (decrypt e.payload.body = none →
      (Router.receive decrypt db e).2 = e ∧
      (Router.receive decrypt db e).1.get_message e.msg_id =
        some (Mailbox.message_row e "inbound" "delivered") ∧
      (Mailbox.message_row e "inbound" "delivered").encrypted = true ∧
      (Mailbox.message_row e "inbound" "delivered").body = e.payload.body) := by
  have he : (Router.decrypt_step decrypt e).msg_id = e.msg_id :=
    decrypt_step_msg_id decrypt e
  have hfresh' : db.get_message (Router.decrypt_step decrypt e).msg_id = none := by
    rw [he]; exact hfresh
  have h1 := receive_of_none decrypt db e hfresh'
  constructor
  · intro p hp
    have hds := decrypt_step_of_some decrypt e p henc hint hp
    refine ⟨?_, ?_, rfl⟩
    · rw [h1, hds]
    · rw [h1]
      have := get_message_store_self db (Router.decrypt_step decrypt e)
        "inbound" "delivered"
      rw [← he]
      rw [hds] at this ⊢
      exact this
  · intro hp
    have hds := decrypt_step_of_none decrypt e hp
    refine ⟨?_, ?_, ?_, rfl⟩
    · rw [h1, hds]
    · rw [h1]
      have := get_message_store_self db (Router.decrypt_step decrypt e)
        "inbound" "delivered"
      rw [← he]
      rw [hds] at this ⊢
      exact this
    · show e.encrypted = true
      exact henc

/-- Witness for C8: a sealed envelope whose body the oracle cannot open is
stored with the sealed body intact. -/
theorem c8_witness :
    (Router.receive (fun _ => none) ⟨[], [], [], 0⟩
      ⟨0, "m1", none, "a@a.local", "b@b.local", "t0", 604800, none, true,
        ⟨"encrypted", "[encrypted]", "CIPHER", none, []⟩⟩).2 =
      ⟨0, "m1", none, "a@a.local", "b@b.local", "t0", 604800, none, true,
        ⟨"encrypted", "[encrypted]", "CIPHER", none, []⟩⟩ ∧
    (Router.receive (fun _ => none) ⟨[], [], [], 0⟩
      ⟨0, "m1", none, "a@a.local", "b@b.local", "t0", 604800, none, true,
        ⟨"encrypted", "[encrypted]", "CIPHER", none, []⟩⟩).1.get_message "m1" =
      some (Mailbox.message_row
        ⟨0, "m1", none, "a@a.local", "b@b.local", "t0", 604800, none, true,
          ⟨"encrypted", "[encrypted]", "CIPHER", none, []⟩⟩
        "inbound" "delivered") ∧
    (Mailbox.message_row
      ⟨0, "m1", none, "a@a.local", "b@b.local", "t0", 604800, none, true,
        ⟨"encrypted", "[encrypted]", "CIPHER", none, []⟩⟩
      "inbound" "delivered").encrypted = true := by
  have h := (c8_receive_decrypt (fun _ => none) ⟨[], [], [], 0⟩
    ⟨0, "m1", none, "a@a.local", "b@b.local", "t0", 604800, none, true,
      ⟨"encrypted", "[encrypted]", "CIPHER", none, []⟩⟩
    rfl rfl rfl).2 rfl
  exact ⟨h.1, h.2.1, h.2.2.1⟩

/-! ## Outbox and send lemmas -/

theorem mem_get_pending_outbox (s : Mailbox) (item : OutboxRow) :
    item ∈ s.get_pending_outbox ↔ item ∈ s.outbox_queue ∧ item.status = "pending" := by
  unfold Mailbox.get_pending_outbox
  rw [List.mem_mergeSort, List.mem_filter]
  simp

theorem delivered_flag_iff (s : Mailbox) (m : String) :
    (!(((s.get_pending_outbox).map (fun item => item.msg_id)).contains m)) = true ↔
      ∀ item ∈ s.get_pending_outbox, item.msg_id ≠ m := by
  constructor
  · intro h item hitem heq
    have hm : ((s.get_pending_outbox).map (fun item => item.msg_id)).contains m = true :=
      List.elem_iff.mpr (List.mem_map.mpr ⟨item, hitem, heq⟩)
    rw [hm] at h
    exact absurd h (by decide)
  · intro h
    by_contra hcon
    have hc : ((s.get_pending_outbox).map (fun item => item.msg_id)).contains m = true := by
      revert hcon
      cases ((s.get_pending_outbox).map (fun item => item.msg_id)).contains m <;> simp
    rcases List.mem_map.mp (List.elem_iff.mp hc) with ⟨item, hitem, heq⟩
    exact h item hitem heq

theorem get_pending_outbox_congr (s1 s2 : Mailbox)
    (h : s1.outbox_queue = s2.outbox_queue) :
    s1.get_pending_outbox = s2.get_pending_outbox := by
  unfold Mailbox.get_pending_outbox
  rw [h]

/-- The three terminal shapes of `Router.send`: every run ends storing
`relayed`, `delivered`, or queueing with `queued`, from a state whose outbox
is unchanged, with an envelope carrying the supplied msg_id. -/
theorem send_shape (ident : IdentityOps) (relay : Bool) (net : SendNet)
    (addr : String) (db : Mailbox)
    (msg_id sent_at to_addr subject body intent : String) (encrypt : Bool) :
    ∃ (db1 : Mailbox) (env : MessageEnvelope),
      env.msg_id = msg_id ∧ db1.outbox_queue = db.outbox_queue ∧
      (Router.send ident relay net addr db msg_id sent_at to_addr subject body
          intent encrypt = (db1.store_message env "outbound" "relayed", env) ∨
       Router.send ident relay net addr db msg_id sent_at to_addr subject body
          intent encrypt = (db1.store_message env "outbound" "delivered", env) ∨
       Router.send ident relay net addr db msg_id sent_at to_addr subject body
          intent encrypt =
         ((db1.queue_outbox env).store_message env "outbound" "queued", env)) := by
  simp only [Router.send]
  rcases hp : db.get_peer_by_address to_addr with _ | p
  · cases relay with
    | false =>
        refine ⟨_, _, ?_, ?_, Or.inr (Or.inr rfl)⟩ <;>
          first | rfl | (cases encrypt <;> rfl)
    | true =>
        rcases hl : net.lookup_result with _ | data
        · refine ⟨_, _, ?_, ?_, Or.inr (Or.inr rfl)⟩ <;>
            first | rfl | (cases encrypt <;> rfl)
        · cases hd : net.direct_ok with
          | true =>
              refine ⟨_, _, ?_, ?_, Or.inr (Or.inl rfl)⟩ <;>
                first | rfl | (cases encrypt <;> rfl)
          | false =>
              cases hdep : net.deposit_ok with
              | true =>
                  refine ⟨_, _, ?_, ?_, Or.inl rfl⟩ <;>
                    first | rfl | (cases encrypt <;> rfl)
              | false =>
                  refine ⟨_, _, ?_, ?_, Or.inr (Or.inr rfl)⟩ <;>
                    first | rfl | (cases encrypt <;> rfl)
  · cases hd : net.direct_ok with
    | true =>
        refine ⟨_, _, ?_, ?_, Or.inr (Or.inl rfl)⟩ <;>
          first | rfl | (cases encrypt <;> rfl)
    | false =>
        cases relay with
        | false =>
            refine ⟨_, _, ?_, ?_, Or.inr (Or.inr rfl)⟩ <;>
              first | rfl | (cases encrypt <;> rfl)
        | true =>
            cases hdep : net.deposit_ok with
            | true =>
                refine ⟨_, _, ?_, ?_, Or.inl rfl⟩ <;>
                  first | rfl | (cases encrypt <;> rfl)
            | false =>
                refine ⟨_, _, ?_, ?_, Or.inr (Or.inr rfl)⟩ <;>
                  first | rfl | (cases encrypt <;> rfl)

theorem filter_map_update_other {α : Type} (key : α → String) (f : α → α)
    (mid m : String) (hne : mid ≠ m) (hkey : ∀ x, key (f x) = key x) :
    ∀ (l : List α),
      (l.map (fun r => if key r = mid then f r else r)).filter
          (fun r => key r = m) =
        l.filter (fun r => key r = m) := by
  intro l
  induction l with
  | nil => rfl
  | cons a t ih =>
      rw [List.map_cons]
      by_cases ha : key a = mid
      · rw [if_pos ha]
        have h1 : ¬(key (f a) = m) := by rw [hkey, ha]; exact hne
        have h2 : ¬(key a = m) := by rw [ha]; exact hne
        rw [List.filter_cons_of_neg (by simpa using h1),
          List.filter_cons_of_neg (by simpa using h2), ih]
      · rw [if_neg ha]
        by_cases hm : key a = m
        · rw [List.filter_cons_of_pos (by simpa using hm),
            List.filter_cons_of_pos (by simpa using hm), ih]
        · rw [List.filter_cons_of_neg (by simpa using hm),
            List.filter_cons_of_neg (by simpa using hm), ih]

theorem mark_sent_filter_other (s : Mailbox) (mid m : String) (hne : mid ≠ m) :
    (s.mark_outbox_sent mid).outbox_queue.filter (fun r => r.msg_id = m) =
      s.outbox_queue.filter (fun r => r.msg_id = m) := by
  unfold Mailbox.mark_outbox_sent
  exact filter_map_update_other (fun r => r.msg_id)
    (fun r => { r with status := "sent" }) mid m hne (fun x => rfl) s.outbox_queue

theorem mark_failed_filter_other (s : Mailbox) (mid m : String) (k : Nat)
    (hne : mid ≠ m) :
    (s.mark_outbox_failed mid k).outbox_queue.filter (fun r => r.msg_id = m) =
      s.outbox_queue.filter (fun r => r.msg_id = m) := by
  unfold Mailbox.mark_outbox_failed
  exact filter_map_update_other (fun r => r.msg_id)
    (fun r => { r with status := "pending", attempts := k }) mid m hne
    (fun x => rfl) s.outbox_queue

theorem mark_sent_status (s : Mailbox) (mid : String) :
    ∀ r ∈ (s.mark_outbox_sent mid).outbox_queue, r.msg_id = mid →
      r.status = "sent" := by
  unfold Mailbox.mark_outbox_sent
  intro r hr hmid
  rcases List.mem_map.mp hr with ⟨x, hx, hfx⟩
  by_cases h : x.msg_id = mid
  · rw [if_pos h] at hfx
    rw [← hfx]
  · rw [if_neg h] at hfx
    subst hfx
    exact absurd hmid h

theorem mark_failed_status (s : Mailbox) (mid : String) (k : Nat) :
    ∀ r ∈ (s.mark_outbox_failed mid k).outbox_queue, r.msg_id = mid →
      r.status = "pending" ∧ r.attempts = k := by
  unfold Mailbox.mark_outbox_failed
  intro r hr hmid
  rcases List.mem_map.mp hr with ⟨x, hx, hfx⟩
  by_cases h : x.msg_id = mid
  · rw [if_pos h] at hfx
    rw [← hfx]
    exact ⟨rfl, rfl⟩
  · rw [if_neg h] at hfx
    subst hfx
    exact absurd hmid h

theorem retry_item_peers (relay : Bool) (net : RetryNet) (s : Mailbox)
    (i : OutboxRow) :
    (Router.retry_item relay net s i).peers = s.peers := by
  unfold Router.retry_item
  rcases hq : s.get_peer_by_address i.envelope_json.to_addr with _ | p <;>
      simp only [hq] <;>
    first | rfl | (split_ifs <;> rfl)

theorem foldl_retry_peers (relay : Bool) (net : RetryNet) :
    ∀ (L : List OutboxRow) (s : Mailbox),
      (L.foldl (Router.retry_item relay net) s).peers = s.peers := by
  intro L
  induction L with
  | nil => intro s; rfl
  | cons a t ih =>
      intro s
      rw [List.foldl_cons, ih, retry_item_peers]

theorem retry_item_frame (relay : Bool) (net : RetryNet) (s : Mailbox)
    (i : OutboxRow) (m : String) (hne : i.envelope_json.msg_id ≠ m) :
    (Router.retry_item relay net s i).outbox_queue.filter
        (fun r => r.msg_id = m) =
      s.outbox_queue.filter (fun r => r.msg_id = m) ∧
    (Router.retry_item relay net s i).get_message m = s.get_message m := by
  have hstore_gm : ∀ (s2 : Mailbox) (st : String),
      (s2.store_message i.envelope_json "outbound" st).get_message m =
        s2.get_message m :=
    fun s2 st => get_message_store_other s2 i.envelope_json "outbound" st m
      (fun h => hne (h.symm))
  unfold Router.retry_item
  rcases hq : s.get_peer_by_address i.envelope_json.to_addr with _ | p <;>
    simp only [hq]
  · refine ⟨?_, ?_⟩ <;> first | rfl | trivial
  · by_cases h1 : net.direct_ok i.envelope_json.msg_id = true
    · rw [if_pos h1]
      constructor
      · rw [store_message_outbox]
        exact mark_sent_filter_other s i.envelope_json.msg_id m hne
      · rw [hstore_gm]
        rfl
    · rw [if_neg h1]
      by_cases h2 : relay = true
      · rw [if_pos h2]
        by_cases h3 : net.deposit_ok i.envelope_json.msg_id = true
        · rw [if_pos h3]
          constructor
          · rw [store_message_outbox]
            exact mark_sent_filter_other s i.envelope_json.msg_id m hne
          · rw [hstore_gm]
            rfl
        · rw [if_neg h3]
          exact ⟨rfl, rfl⟩
      · rw [if_neg h2]
        constructor
        · exact mark_failed_filter_other s i.envelope_json.msg_id m _ hne
        · rfl

theorem foldl_retry_frame (relay : Bool) (net : RetryNet) (m : String) :
    ∀ (L : List OutboxRow) (s : Mailbox),
      (∀ j ∈ L, j.envelope_json.msg_id ≠ m) →
      ((L.foldl (Router.retry_item relay net) s).outbox_queue.filter
          (fun r => r.msg_id = m) =
        s.outbox_queue.filter (fun r => r.msg_id = m) ∧
      (L.foldl (Router.retry_item relay net) s).get_message m =
        s.get_message m) := by
  intro L
  induction L with
  | nil => intro s _; exact ⟨rfl, rfl⟩
  | cons a t ih =>
      intro s hj
      rw [List.foldl_cons]
      have ha := retry_item_frame relay net s a m (hj a (List.mem_cons_self _ _))
      have ht := ih (Router.retry_item relay net s a)
        (fun j hjt => hj j (List.mem_cons_of_mem _ hjt))
      exact ⟨ht.1.trans ha.1, ht.2.trans ha.2⟩

/-! ## Claim C1 -/

/-- C1 (amended): in `Router.retry_queued`, for a pending entry whose msg_id
is not shared by any other pending entry: a successful direct delivery or,
failing that, a successful relay deposit marks the entry `sent` and writes
`delivered`/`relayed` to the message log; when direct delivery fails and no
relay is configured the attempt counter is incremented and the entry stays
pending; but when the configured relay's deposit also fails, or when no peer
is found for the address, the entry — status and attempt counter alike — and
its log record are left completely unchanged: the attempt counter is NOT
incremented in those two failure modes. -/
theorem c1_retry_outcomes (relay : Bool) (net : RetryNet) (db : Mailbox)
    (pre post : List OutboxRow) (item : OutboxRow)
    (hsplit : db.get_pending_outbox = pre ++ item :: post)
    (hpre : ∀ j ∈ pre, j.envelope_json.msg_id ≠ item.envelope_json.msg_id)
    (hpost : ∀ j ∈ post, j.envelope_json.msg_id ≠ item.envelope_json.msg_id) :
    ((db.get_peer_by_address item.envelope_json.to_addr).isSome = true →
      net.direct_ok item.envelope_json.msg_id = true →
      ((∀ r ∈ (Router.retry_queued relay net db).outbox_queue,
          r.msg_id = item.envelope_json.msg_id → r.status = "sent") ∧
        (Router.retry_queued relay net db).get_message
            item.envelope_json.msg_id =
          some (Mailbox.message_row item.envelope_json "outbound"
            "delivered"))) ∧
    ((db.get_peer_by_address item.envelope_json.to_addr).isSome = true →
      net.direct_ok item.envelope_json.msg_id = false → relay = true →
      net.deposit_ok item.envelope_json.msg_id = true →
      ((∀ r ∈ (Router.retry_queued relay net db).outbox_queue,
          r.msg_id = item.envelope_json.msg_id → r.status = "sent") ∧
        (Router.retry_queued relay net db).get_message
            item.envelope_json.msg_id =
          some (Mailbox.message_row item.envelope_json "outbound"
            "relayed"))) ∧
    ((db.get_peer_by_address item.envelope_json.to_addr).isSome = true →
      net.direct_ok item.envelope_json.msg_id = false → relay = false →
      (∀ r ∈ (Router.retry_queued relay net db).outbox_queue,
        r.msg_id = item.envelope_json.msg_id →
        r.status = "pending" ∧ r.attempts = item.attempts + 1)) ∧
    ((db.get_peer_by_address item.envelope_json.to_addr).isSome = true →
      net.direct_ok item.envelope_json.msg_id = false → relay = true →
      net.deposit_ok item.envelope_json.msg_id = false →
      ((Router.retry_queued relay net db).outbox_queue.filter
          (fun r => r.msg_id = item.envelope_json.msg_id) =
        db.outbox_queue.filter
          (fun r => r.msg_id = item.envelope_json.msg_id) ∧
      (Router.retry_queued relay net db).get_message
          item.envelope_json.msg_id =
        db.get_message item.envelope_json.msg_id)) ∧
    (db.get_peer_by_address item.envelope_json.to_addr = none →
      ((Router.retry_queued relay net db).outbox_queue.filter
          (fun r => r.msg_id = item.envelope_json.msg_id) =
        db.outbox_queue.filter
          (fun r => r.msg_id = item.envelope_json.msg_id) ∧
      (Router.retry_queued relay net db).get_message
          item.envelope_json.msg_id =
        db.get_message item.envelope_json.msg_id)) := by
  obtain ⟨s1, hs1⟩ : ∃ s1, pre.foldl (Router.retry_item relay net) db = s1 :=
    ⟨_, rfl⟩
  have hfold : Router.retry_queued relay net db =
      post.foldl (Router.retry_item relay net)
        (Router.retry_item relay net s1 item) := by
    unfold Router.retry_queued
    rw [hsplit, List.foldl_append, List.foldl_cons, hs1]
  have hs1peer : s1.get_peer_by_address item.envelope_json.to_addr =
      db.get_peer_by_address item.envelope_json.to_addr := by
    unfold Mailbox.get_peer_by_address
    rw [← hs1, foldl_retry_peers]
  have hpreframe := foldl_retry_frame relay net item.envelope_json.msg_id pre
    db hpre
  rw [hs1] at hpreframe
  have success : ∀ (st : String),
      Router.retry_item relay net s1 item =
        (s1.mark_outbox_sent item.envelope_json.msg_id).store_message
          item.envelope_json "outbound" st →
      ((∀ r ∈ (Router.retry_queued relay net db).outbox_queue,
          r.msg_id = item.envelope_json.msg_id → r.status = "sent") ∧
       (Router.retry_queued relay net db).get_message
           item.envelope_json.msg_id =
         some (Mailbox.message_row item.envelope_json "outbound" st)) := by
    intro st hstep
    have hpf := foldl_retry_frame relay net item.envelope_json.msg_id post
      ((s1.mark_outbox_sent item.envelope_json.msg_id).store_message
        item.envelope_json "outbound" st) hpost
    constructor
    · intro r hr hrm
      have hrfilter : r ∈ (Router.retry_queued relay net db).outbox_queue.filter
          (fun x => x.msg_id = item.envelope_json.msg_id) :=
        List.mem_filter.mpr ⟨hr, by simpa using hrm⟩
      rw [hfold, hstep, hpf.1, store_message_outbox] at hrfilter
      exact mark_sent_status s1 item.envelope_json.msg_id r
        (List.mem_filter.mp hrfilter).1 hrm
    · rw [hfold, hstep, hpf.2]
      exact get_message_store_self
        (s1.mark_outbox_sent item.envelope_json.msg_id)
        item.envelope_json "outbound" st
  have unchanged : Router.retry_item relay net s1 item = s1 →
      ((Router.retry_queued relay net db).outbox_queue.filter
          (fun r => r.msg_id = item.envelope_json.msg_id) =
        db.outbox_queue.filter
          (fun r => r.msg_id = item.envelope_json.msg_id) ∧
      (Router.retry_queued relay net db).get_message
          item.envelope_json.msg_id =
        db.get_message item.envelope_json.msg_id) := by
    intro hstep
    have hpf := foldl_retry_frame relay net item.envelope_json.msg_id post s1
      hpost
    constructor
    · rw [hfold, hstep, hpf.1, hpreframe.1]
    · rw [hfold, hstep, hpf.2, hpreframe.2]
  have failed : Router.retry_item relay net s1 item =
        s1.mark_outbox_failed item.envelope_json.msg_id (item.attempts + 1) →
      (∀ r ∈ (Router.retry_queued relay net db).outbox_queue,
        r.msg_id = item.envelope_json.msg_id →
        r.status = "pending" ∧ r.attempts = item.attempts + 1) := by
    intro hstep r hr hrm
    have hpf := foldl_retry_frame relay net item.envelope_json.msg_id post
      (s1.mark_outbox_failed item.envelope_json.msg_id (item.attempts + 1))
      hpost
    have hrfilter : r ∈ (Router.retry_queued relay net db).outbox_queue.filter
        (fun x => x.msg_id = item.envelope_json.msg_id) :=
      List.mem_filter.mpr ⟨hr, by simpa using hrm⟩
    rw [hfold, hstep, hpf.1] at hrfilter
    exact mark_failed_status s1 item.envelope_json.msg_id (item.attempts + 1) r
      (List.mem_filter.mp hrfilter).1 hrm
  refine ⟨?_, ?_, ?_, ?_, ?_⟩
  · intro hp hd
    obtain ⟨p, hp'⟩ := Option.isSome_iff_exists.mp hp
    have hq : s1.get_peer_by_address item.envelope_json.to_addr = some p := by
      rw [hs1peer]; exact hp'
    refine success "delivered" ?_
    unfold Router.retry_item
    simp only [hq]
    rw [if_pos hd]
  · intro hp hd hr hdep
    obtain ⟨p, hp'⟩ := Option.isSome_iff_exists.mp hp
    have hq : s1.get_peer_by_address item.envelope_json.to_addr = some p := by
      rw [hs1peer]; exact hp'
    refine success "relayed" ?_
    unfold Router.retry_item
    simp only [hq]
    rw [if_neg (by rw [hd]; simp), if_pos hr, if_pos hdep]
  · intro hp hd hrn
    obtain ⟨p, hp'⟩ := Option.isSome_iff_exists.mp hp
    have hq : s1.get_peer_by_address item.envelope_json.to_addr = some p := by
      rw [hs1peer]; exact hp'
    refine failed ?_
    unfold Router.retry_item
    simp only [hq]
    rw [if_neg (by rw [hd]; simp), if_neg (by rw [hrn]; simp)]
  · intro hp hd hr hdep
    obtain ⟨p, hp'⟩ := Option.isSome_iff_exists.mp hp
    have hq : s1.get_peer_by_address item.envelope_json.to_addr = some p := by
      rw [hs1peer]; exact hp'
    refine unchanged ?_
    unfold Router.retry_item
    simp only [hq]
    rw [if_neg (by rw [hd]; simp), if_pos hr, if_neg (by rw [hdep]; simp)]
  · intro hpn
    have hq : s1.get_peer_by_address item.envelope_json.to_addr = none := by
      rw [hs1peer]; exact hpn
    refine unchanged ?_
    unfold Router.retry_item
    simp only [hq]

/-- C1 counterexample: one pending entry, its peer present in the peer table,
a relay configured, and both the direct POST and the relay deposit failing.
The claim requires the attempt counter to be incremented (0 → 1) while the
entry stays pending; the code leaves the mailbox — including the counter —
completely unchanged, so no entry with `attempts = 1` exists afterwards. -/
theorem c1_counterexample :
    ((⟨[], [⟨"fpB", "b", "b@b.local", "h", 7444, "pkB", "ekB", "t0"⟩],
        [⟨0, "m1", "b@b.local",
          ⟨0, "m1", none, "a@a.local", "b@b.local", "t0", 604800, none, false,
            ⟨"human_message", "hi", "ping", none, []⟩⟩, 0, none, "pending"⟩],
        1⟩ : Mailbox).get_peer_by_address "b@b.local").isSome = true ∧
    Router.retry_queued true ⟨fun _ => false, fun _ => false⟩
      ⟨[], [⟨"fpB", "b", "b@b.local", "h", 7444, "pkB", "ekB", "t0"⟩],
        [⟨0, "m1", "b@b.local",
          ⟨0, "m1", none, "a@a.local", "b@b.local", "t0", 604800, none, false,
            ⟨"human_message", "hi", "ping", none, []⟩⟩, 0, none, "pending"⟩],
        1⟩ =
      ⟨[], [⟨"fpB", "b", "b@b.local", "h", 7444, "pkB", "ekB", "t0"⟩],
        [⟨0, "m1", "b@b.local",
          ⟨0, "m1", none, "a@a.local", "b@b.local", "t0", 604800, none, false,
            ⟨"human_message", "hi", "ping", none, []⟩⟩, 0, none, "pending"⟩],
        1⟩ ∧
    ¬(∃ r ∈ (Router.retry_queued true ⟨fun _ => false, fun _ => false⟩
        ⟨[], [⟨"fpB", "b", "b@b.local", "h", 7444, "pkB", "ekB", "t0"⟩],
          [⟨0, "m1", "b@b.local",
            ⟨0, "m1", none, "a@a.local", "b@b.local", "t0", 604800, none, false,
              ⟨"human_message", "hi", "ping", none, []⟩⟩, 0, none, "pending"⟩],
          1⟩).outbox_queue, r.attempts = 1) := by
  have hpend : (⟨[], [⟨"fpB", "b", "b@b.local", "h", 7444, "pkB", "ekB", "t0"⟩],
      [⟨0, "m1", "b@b.local",
        ⟨0, "m1", none, "a@a.local", "b@b.local", "t0", 604800, none, false,
          ⟨"human_message", "hi", "ping", none, []⟩⟩, 0, none, "pending"⟩],
      1⟩ : Mailbox).get_pending_outbox =
      [⟨0, "m1", "b@b.local",
        ⟨0, "m1", none, "a@a.local", "b@b.local", "t0", 604800, none, false,
          ⟨"human_message", "hi", "ping", none, []⟩⟩, 0, none, "pending"⟩] := by
    unfold Mailbox.get_pending_outbox
    rw [show ((⟨[], [⟨"fpB", "b", "b@b.local", "h", 7444, "pkB", "ekB", "t0"⟩],
        [⟨0, "m1", "b@b.local",
          ⟨0, "m1", none, "a@a.local", "b@b.local", "t0", 604800, none, false,
            ⟨"human_message", "hi", "ping", none, []⟩⟩, 0, none, "pending"⟩],
        1⟩ : Mailbox).outbox_queue.filter (fun r => r.status = "pending")) =
        [⟨0, "m1", "b@b.local",
          ⟨0, "m1", none, "a@a.local", "b@b.local", "t0", 604800, none, false,
            ⟨"human_message", "hi", "ping", none, []⟩⟩, 0, none, "pending"⟩]
      from by decide]
    exact List.mergeSort_singleton _
  have hrun : Router.retry_queued true ⟨fun _ => false, fun _ => false⟩
      ⟨[], [⟨"fpB", "b", "b@b.local", "h", 7444, "pkB", "ekB", "t0"⟩],
        [⟨0, "m1", "b@b.local",
          ⟨0, "m1", none, "a@a.local", "b@b.local", "t0", 604800, none, false,
            ⟨"human_message", "hi", "ping", none, []⟩⟩, 0, none, "pending"⟩],
        1⟩ =
      ⟨[], [⟨"fpB", "b", "b@b.local", "h", 7444, "pkB", "ekB", "t0"⟩],
        [⟨0, "m1", "b@b.local",
          ⟨0, "m1", none, "a@a.local", "b@b.local", "t0", 604800, none, false,
            ⟨"human_message", "hi", "ping", none, []⟩⟩, 0, none, "pending"⟩],
        1⟩ := by
    unfold Router.retry_queued
    rw [hpend]
    decide
  refine ⟨by decide, hrun, ?_⟩
  rw [hrun]
  decide

/-- Witness for the amended C1 on a concrete mailbox: with the peer present
and direct delivery succeeding, the single pending entry is marked `sent` and
the log records `delivered`. -/
theorem c1_witness :
    (∀ r ∈ (Router.retry_queued true ⟨fun _ => true, fun _ => false⟩
        ⟨[], [⟨"fpB", "b", "b@b.local", "h", 7444, "pkB", "ekB", "t0"⟩],
          [⟨0, "m1", "b@b.local",
            ⟨0, "m1", none, "a@a.local", "b@b.local", "t0", 604800, none, false,
              ⟨"human_message", "hi", "ping", none, []⟩⟩, 0, none, "pending"⟩],
          1⟩).outbox_queue,
      r.msg_id = "m1" → r.status = "sent") ∧
    (Router.retry_queued true ⟨fun _ => true, fun _ => false⟩
        ⟨[], [⟨"fpB", "b", "b@b.local", "h", 7444, "pkB", "ekB", "t0"⟩],
          [⟨0, "m1", "b@b.local",
            ⟨0, "m1", none, "a@a.local", "b@b.local", "t0", 604800, none, false,
              ⟨"human_message", "hi", "ping", none, []⟩⟩, 0, none, "pending"⟩],
          1⟩).get_message "m1" =
      some (Mailbox.message_row
        ⟨0, "m1", none, "a@a.local", "b@b.local", "t0", 604800, none, false,
          ⟨"human_message", "hi", "ping", none, []⟩⟩ "outbound" "delivered") := by
  have h := (c1_retry_outcomes true ⟨fun _ => true, fun _ => false⟩
    ⟨[], [⟨"fpB", "b", "b@b.local", "h", 7444, "pkB", "ekB", "t0"⟩],
      [⟨0, "m1", "b@b.local",
        ⟨0, "m1", none, "a@a.local", "b@b.local", "t0", 604800, none, false,
          ⟨"human_message", "hi", "ping", none, []⟩⟩, 0, none, "pending"⟩],
      1⟩ [] []
    ⟨0, "m1", "b@b.local",
      ⟨0, "m1", none, "a@a.local", "b@b.local", "t0", 604800, none, false,
        ⟨"human_message", "hi", "ping", none, []⟩⟩, 0, none, "pending"⟩
    ?hsplit (by simp) (by simp)).1 (by decide) rfl
  case hsplit =>
    unfold Mailbox.get_pending_outbox
    rw [show ((⟨[], [⟨"fpB", "b", "b@b.local", "h", 7444, "pkB", "ekB", "t0"⟩],
        [⟨0, "m1", "b@b.local",
          ⟨0, "m1", none, "a@a.local", "b@b.local", "t0", 604800, none, false,
            ⟨"human_message", "hi", "ping", none, []⟩⟩, 0, none, "pending"⟩],
        1⟩ : Mailbox).outbox_queue.filter (fun r => r.status = "pending")) =
        [⟨0, "m1", "b@b.local",
          ⟨0, "m1", none, "a@a.local", "b@b.local", "t0", 604800, none, false,
            ⟨"human_message", "hi", "ping", none, []⟩⟩, 0, none, "pending"⟩]
      from by decide]
    exact List.mergeSort_singleton _
  exact h

/-! ## Claim C10 -/

/-- C10: `queue_outbox` on a msg_id already present in the outbox replaces the
row via `INSERT OR REPLACE`: the surviving row for that msg_id is the fresh
one with the schema-default `attempts = 0` and a new rowid, and since every
prior row has a smaller rowid, the pending FIFO (`ORDER BY rowid`) now
returns it last — it does not keep its original queue position or attempt
count. -/
theorem c10_requeue_resets_and_moves_back (db : Mailbox) (e : MessageEnvelope)
    (r0 : OutboxRow) (hr0 : r0 ∈ db.outbox_queue) (hid : r0.msg_id = e.msg_id)
    (hrowid : ∀ r ∈ db.outbox_queue, r.rowid < db.next_rowid) :
    ((db.queue_outbox e).outbox_queue.filter (fun r => r.msg_id = e.msg_id)) =
      [⟨db.next_rowid, e.msg_id, e.to_addr, e, 0, none, "pending"⟩] ∧
    ((db.queue_outbox e).get_pending_outbox).getLast? =
      some ⟨db.next_rowid, e.msg_id, e.to_addr, e, 0, none, "pending"⟩ := by
  constructor
  · unfold Mailbox.queue_outbox
    rw [List.filter_append]
    have h1 : (db.outbox_queue.filter (fun r => r.msg_id ≠ e.msg_id)).filter
        (fun r => r.msg_id = e.msg_id) = [] := by
      rw [List.filter_eq_nil_iff]
      intro a ha
      have h2 := (List.mem_filter.mp ha).2
      simp only [decide_eq_true_eq] at h2 ⊢
      exact h2
    rw [h1]
    simp
  · have hsorted : ((db.queue_outbox e).get_pending_outbox).Pairwise
        (fun a b => a.rowid ≤ b.rowid) := by
      unfold Mailbox.get_pending_outbox
      refine List.Pairwise.imp ?_ (List.sorted_mergeSort ?_ ?_ _)
      · intro a b h
        simpa using h
      · intro a b c hab hbc
        simp only [decide_eq_true_eq] at hab hbc ⊢
        omega
      · intro a b
        simp only [Bool.or_eq_true, decide_eq_true_eq]
        omega
    have hmem : (⟨db.next_rowid, e.msg_id, e.to_addr, e, 0, none, "pending"⟩ :
        OutboxRow) ∈ (db.queue_outbox e).get_pending_outbox := by
      refine (mem_get_pending_outbox _ _).mpr ⟨?_, rfl⟩
      unfold Mailbox.queue_outbox
      simp
    have hmax : ∀ y ∈ (db.queue_outbox e).get_pending_outbox,
        y = (⟨db.next_rowid, e.msg_id, e.to_addr, e, 0, none, "pending"⟩ :
          OutboxRow) ∨
        y.rowid < (⟨db.next_rowid, e.msg_id, e.to_addr, e, 0, none,
          "pending"⟩ : OutboxRow).rowid := by
      intro y hy
      have hy' := ((mem_get_pending_outbox _ _).mp hy).1
      unfold Mailbox.queue_outbox at hy'
      rcases List.mem_append.mp hy' with hl | hr
      · exact Or.inr (hrowid y (List.mem_filter.mp hl).1)
      · exact Or.inl (by simpa using hr)
    exact getLast?_of_max (fun r => r.rowid) _ _ hsorted hmem hmax

/-- Witness for C10: re-queueing `m1` over an existing entry with 3 attempts
yields a fresh pending row with attempts 0 at the back of the FIFO. -/
theorem c10_witness :
    ((Mailbox.queue_outbox
        ⟨[], [],
          [⟨0, "m1", "b@b.local",
            ⟨0, "m1", none, "a@a.local", "b@b.local", "t0", 604800, none, false,
              ⟨"human_message", "hi", "ping", none, []⟩⟩, 3, none, "pending"⟩],
          1⟩
        ⟨0, "m1", none, "a@a.local", "b@b.local", "t0", 604800, none, false,
          ⟨"human_message", "hi", "ping", none, []⟩⟩).outbox_queue.filter
      (fun r => r.msg_id = "m1")) =
      [⟨1, "m1", "b@b.local",
        ⟨0, "m1", none, "a@a.local", "b@b.local", "t0", 604800, none, false,
          ⟨"human_message", "hi", "ping", none, []⟩⟩, 0, none, "pending"⟩] ∧
    ((Mailbox.queue_outbox
        ⟨[], [],
          [⟨0, "m1", "b@b.local",
            ⟨0, "m1", none, "a@a.local", "b@b.local", "t0", 604800, none, false,
              ⟨"human_message", "hi", "ping", none, []⟩⟩, 3, none, "pending"⟩],
          1⟩
        ⟨0, "m1", none, "a@a.local", "b@b.local", "t0", 604800, none, false,
          ⟨"human_message", "hi", "ping", none, []⟩⟩).get_pending_outbox).getLast? =
      some ⟨1, "m1", "b@b.local",
        ⟨0, "m1", none, "a@a.local", "b@b.local", "t0", 604800, none, false,
          ⟨"human_message", "hi", "ping", none, []⟩⟩, 0, none, "pending"⟩ :=
  c10_requeue_resets_and_moves_back
    ⟨[], [],
      [⟨0, "m1", "b@b.local",
        ⟨0, "m1", none, "a@a.local", "b@b.local", "t0", 604800, none, false,
          ⟨"human_message", "hi", "ping", none, []⟩⟩, 3, none, "pending"⟩],
      1⟩
    ⟨0, "m1", none, "a@a.local", "b@b.local", "t0", 604800, none, false,
      ⟨"human_message", "hi", "ping", none, []⟩⟩
    ⟨0, "m1", "b@b.local",
      ⟨0, "m1", none, "a@a.local", "b@b.local", "t0", 604800, none, false,
        ⟨"human_message", "hi", "ping", none, []⟩⟩, 3, none, "pending"⟩
    (by decide) (by decide) (by decide)

/-! ## Claim C2 -/

/-- C2: for every `POST /v0/send` on a mailbox whose outbox does not already
hold the fresh msg_id, the response's `delivered` field is true exactly when
the msg_id is absent from the pending outbox after `Router.send` completes,
which in turn holds exactly when the stored log record for the envelope ended
in status `delivered` or `relayed` rather than `queued`. -/
theorem c2_send_delivered_iff (ident : IdentityOps) (relay : Bool) (net : SendNet)
    (addr : String) (db : Mailbox)
    (msg_id sent_at to_addr subject body intent : String) (encrypt : Bool)
    (hfresh : ∀ r ∈ db.outbox_queue, r.msg_id ≠ msg_id) :
    ((send_message ident relay net addr db msg_id sent_at to_addr subject body
        intent encrypt).2.delivered = true ↔
      (∃ rec, (send_message ident relay net addr db msg_id sent_at to_addr
          subject body intent encrypt).1.get_message msg_id = some rec ∧
        (rec.status = "delivered" ∨ rec.status = "relayed"))) ∧
    ((send_message ident relay net addr db msg_id sent_at to_addr subject body
        intent encrypt).2.delivered = true ↔
      (∀ item ∈ (send_message ident relay net addr db msg_id sent_at to_addr
          subject body intent encrypt).1.get_pending_outbox,
        item.msg_id ≠ msg_id)) := by
  obtain ⟨db1, env, hmsg, hout, hcase⟩ := send_shape ident relay net addr db
    msg_id sent_at to_addr subject body intent encrypt
  rcases hcase with hc | hc | hc
  · -- relayed
    have hpend : (db1.store_message env "outbound" "relayed").get_pending_outbox =
        db.get_pending_outbox :=
      get_pending_outbox_congr _ _ (by rw [store_message_outbox, hout])
    have hnotin : ∀ item ∈ (db1.store_message env "outbound"
        "relayed").get_pending_outbox, item.msg_id ≠ msg_id := by
      intro item hitem
      rw [hpend] at hitem
      exact hfresh item ((mem_get_pending_outbox db item).mp hitem).1
    have hflag := (delivered_flag_iff
      (db1.store_message env "outbound" "relayed") msg_id).mpr hnotin
    have hrec : (db1.store_message env "outbound" "relayed").get_message msg_id =
        some (Mailbox.message_row env "outbound" "relayed") := by
      rw [← hmsg]
      exact get_message_store_self db1 env "outbound" "relayed"
    constructor
    · simp only [send_message, hc]
      exact iff_of_true (by rw [hmsg]; exact hflag) ⟨_, hrec, Or.inr rfl⟩
    · simp only [send_message, hc]
      exact iff_of_true (by rw [hmsg]; exact hflag) hnotin
  · -- delivered
    have hpend : (db1.store_message env "outbound" "delivered").get_pending_outbox =
        db.get_pending_outbox :=
      get_pending_outbox_congr _ _ (by rw [store_message_outbox, hout])
    have hnotin : ∀ item ∈ (db1.store_message env "outbound"
        "delivered").get_pending_outbox, item.msg_id ≠ msg_id := by
      intro item hitem
      rw [hpend] at hitem
      exact hfresh item ((mem_get_pending_outbox db item).mp hitem).1
    have hflag := (delivered_flag_iff
      (db1.store_message env "outbound" "delivered") msg_id).mpr hnotin
    have hrec : (db1.store_message env "outbound" "delivered").get_message msg_id =
        some (Mailbox.message_row env "outbound" "delivered") := by
      rw [← hmsg]
      exact get_message_store_self db1 env "outbound" "delivered"
    constructor
    · simp only [send_message, hc]
      exact iff_of_true (by rw [hmsg]; exact hflag) ⟨_, hrec, Or.inl rfl⟩
    · simp only [send_message, hc]
      exact iff_of_true (by rw [hmsg]; exact hflag) hnotin
  · -- queued
    have hnew_mem : (⟨db1.next_rowid, env.msg_id, env.to_addr, env, 0, none,
        "pending"⟩ : OutboxRow) ∈
        ((db1.queue_outbox env).store_message env "outbound"
          "queued").outbox_queue := by
      rw [store_message_outbox]
      unfold Mailbox.queue_outbox
      simp
    have hpend_mem : (⟨db1.next_rowid, env.msg_id, env.to_addr, env, 0, none,
        "pending"⟩ : OutboxRow) ∈
        ((db1.queue_outbox env).store_message env "outbound"
          "queued").get_pending_outbox :=
      (mem_get_pending_outbox _ _).mpr ⟨hnew_mem, rfl⟩
    have hcontains : (((((db1.queue_outbox env).store_message env "outbound"
        "queued").get_pending_outbox).map (fun item => item.msg_id)).contains
          msg_id) = true := by
      apply List.elem_iff.mpr
      exact List.mem_map.mpr ⟨_, hpend_mem, hmsg⟩
    have hrec : ((db1.queue_outbox env).store_message env "outbound"
        "queued").get_message msg_id =
        some (Mailbox.message_row env "outbound" "queued") := by
      rw [← hmsg]
      exact get_message_store_self (db1.queue_outbox env) env "outbound" "queued"
    constructor
    · simp only [send_message, hc]
      apply iff_of_false
      · rw [hmsg, hcontains]
        decide
      · rintro ⟨rec, hrec2, hst⟩
        rw [hrec] at hrec2
        obtain rfl := Option.some.inj hrec2
        rcases hst with h | h <;> simp [Mailbox.message_row] at h
    · simp only [send_message, hc]
      apply iff_of_false
      · rw [hmsg, hcontains]
        decide
      · intro hall
        exact hall _ hpend_mem hmsg

/-- Witness for C2: a send with no peer, no relay and an empty mailbox is
queued and reported `delivered = false`; the queued record exists. -/
theorem c2_witness :
    ¬((send_message ⟨fun s => s, fun _ k => k⟩ false ⟨none, false, false⟩
        "a@a.local" ⟨[], [], [], 0⟩ "m1" "t0" "b@b.local" "hi" "ping"
        "human_message" true).2.delivered = true) := by
  have h := (c2_send_delivered_iff ⟨fun s => s, fun _ k => k⟩ false
    ⟨none, false, false⟩ "a@a.local" ⟨[], [], [], 0⟩ "m1" "t0" "b@b.local"
    "hi" "ping" "human_message" true (by simp)).1
  intro hcon
  rcases h.mp hcon with ⟨rec, hrec, hst⟩
  have heval : (send_message ⟨fun s => s, fun _ k => k⟩ false ⟨none, false, false⟩
      "a@a.local" ⟨[], [], [], 0⟩ "m1" "t0" "b@b.local" "hi" "ping"
      "human_message" true).1.get_message "m1" =
      some (Mailbox.message_row
        ⟨0, "m1", none, "a@a.local", "b@b.local", "t0", 604800,
          some "m1:a@a.local:b@b.local:t0", false,
          ⟨"human_message", "hi", "ping", none, []⟩⟩ "outbound" "queued") := by
    rfl
  rw [heval] at hrec
  obtain rfl := Option.some.inj hrec
  rcases hst with hq | hq <;> exact absurd hq (by decide)

/-! ## Claim C4 -/

/-- C4: sign–verify round-trip.  For every identity and byte string, verifying
a fresh signature against the matching public key returns `true`; changing any
part of the message bytes, supplying any other or structurally malformed
signature blob, or supplying any other or malformed public key makes
`Identity.verify` return `false`.  `verify` is a total `Bool`-valued function,
which models the no-exception contract of crypto.py lines 76–85. -/
theorem c4_sign_verify_roundtrip (sk : SigningKey) (data data' : List Nat)
    (sig' pk' : Wire) (hdata : data' ≠ data)
    (hsig : sig' ≠ Identity.sign sk data) (hpk : pk' ≠ sk.pubkey) :
    Identity.verify data (Identity.sign sk data) sk.pubkey = true ∧
    Identity.verify data' (Identity.sign sk data) sk.pubkey = false ∧
    Identity.verify data sig' sk.pubkey = false ∧
    Identity.verify data (Identity.sign sk data) pk' = false := by
  refine ⟨?_, ?_, ?_, ?_⟩
  · simp [Identity.verify, Identity.sign, SigningKey.pubkey]
  · simp [Identity.verify, Identity.sign, SigningKey.pubkey, Ne.symm hdata]
  · cases sig' with
    | sig vk d =>
        by_cases hvk : vk = sk.verify_key
        · subst hvk
          by_cases hd : d = data
          · exact absurd (by simp [Identity.sign, hd]) hsig
          · simp [Identity.verify, SigningKey.pubkey, hd]
        · simp [Identity.verify, SigningKey.pubkey, hvk]
    | key k => rfl
    | malformed t => rfl
  · cases pk' with
    | sig vk d => rfl
    | key k =>
        have hk : sk.verify_key ≠ k := fun h => hpk (by simp [SigningKey.pubkey, h])
        simp [Identity.verify, Identity.sign, hk]
    | malformed t => rfl

/-- Witness for C4 at concrete inputs. -/
theorem c4_witness :
    Identity.verify [0] (Identity.sign ⟨5⟩ [0]) (SigningKey.pubkey ⟨5⟩) = true ∧
    Identity.verify [1] (Identity.sign ⟨5⟩ [0]) (SigningKey.pubkey ⟨5⟩) = false ∧
    Identity.verify [0] (Wire.malformed "x") (SigningKey.pubkey ⟨5⟩) = false ∧
    Identity.verify [0] (Identity.sign ⟨5⟩ [0]) (Wire.malformed "y") = false :=
  c4_sign_verify_roundtrip ⟨5⟩ [0] [1] (Wire.malformed "x") (Wire.malformed "y")
    (by decide) (by decide) (by decide)

/-! ## Claim C7 -/

/-- C7: fingerprint consistency.  The recipient fingerprint the router
computes for a relay deposit from the cached base64 signing pubkey
(router.py line 145) equals the `Identity.fingerprint` the owning node
computes from its raw verify-key bytes (crypto.py lines 65–69), for every
32-byte verify key. -/
theorem c7_fingerprint_consistency (vk : List Nat) (hlen : vk.length = 32)
    (hbytes : ∀ b ∈ vk, b < 256) :
    deposit_recipient_fp (Identity.pubkey_b64 vk) = Identity.fingerprint vk := by
  unfold deposit_recipient_fp Identity.pubkey_b64 Identity.fingerprint
  rw [b64decode_b64encode vk hbytes]

/-- Witness for C7 on a concrete 32-byte verify key. -/
theorem c7_witness :
    deposit_recipient_fp (Identity.pubkey_b64 (List.range 32)) =
      Identity.fingerprint (List.range 32) :=
  c7_fingerprint_consistency (List.range 32) (by decide) (by decide)

/-! ## Claim C6 -/

/-- C6: relay `ack` deletes exactly the held rows whose `msg_id` is in the
given list and whose `recipient_fingerprint` equals the acknowledging
recipient; a message deposited for a different recipient survives an ack that
names its msg_id. -/
theorem c6_ack_recipient_scoped (db : List HeldMessage) (msg_ids : List String)
    (recipient : String) (m r : HeldMessage)
    (hr : r ∈ db) (hne : r.recipient_fingerprint ≠ recipient) :
    (m ∈ RelayStore.ack db msg_ids recipient ↔
      m ∈ db ∧ ¬(m.msg_id ∈ msg_ids ∧ m.recipient_fingerprint = recipient)) ∧
    r ∈ RelayStore.ack db msg_ids recipient := by
  have hchar : ∀ x : HeldMessage, x ∈ RelayStore.ack db msg_ids recipient ↔
      x ∈ db ∧ ¬(x.msg_id ∈ msg_ids ∧ x.recipient_fingerprint = recipient) := by
    intro x
    unfold RelayStore.ack
    by_cases h : msg_ids = []
    · subst h; simp
    · rw [if_neg h, List.mem_filter]
      simp only [decide_eq_true_eq]
  exact ⟨hchar m, (hchar r).mpr ⟨hr, fun hcon => hne hcon.2⟩⟩

/-- Witness for C6: a message held for recipient `RP` survives
`ack("R", ["m1"])`. -/
theorem c6_witness :
    (⟨"m1", "RP", "S", "blob", "sg", 1, 10⟩ : HeldMessage) ∈
      RelayStore.ack [⟨"m1", "RP", "S", "blob", "sg", 1, 10⟩] ["m1"] "R" :=
  (c6_ack_recipient_scoped [⟨"m1", "RP", "S", "blob", "sg", 1, 10⟩] ["m1"] "R"
    ⟨"m1", "RP", "S", "blob", "sg", 1, 10⟩ ⟨"m1", "RP", "S", "blob", "sg", 1, 10⟩
    (by decide) (by decide)).2

/-! ## Claim C5 -/

/-- C5: relay `pickup` returns exactly the held rows for the recipient with
`deposited_at > since` and `expires_at > now`, ordered by `deposited_at`
ascending; an expired message is never returned; `cleanup_expired` keeps
exactly the rows whose `expires_at` is not in the past, so every expired row
is deleted. -/
theorem c5_pickup_cleanup (db : List HeldMessage) (recipient : String)
    (since now : Nat) :
    (∀ m, m ∈ RelayStore.pickup db recipient since now ↔
      m ∈ db ∧ m.recipient_fingerprint = recipient ∧
        m.deposited_at > since ∧ m.expires_at > now) ∧
    (RelayStore.pickup db recipient since now).Pairwise
      (fun a b => a.deposited_at ≤ b.deposited_at) ∧
    (∀ m ∈ db, m.expires_at ≤ now → m ∉ RelayStore.pickup db recipient since now) ∧
    (∀ m, m ∈ RelayStore.cleanup_expired db now ↔ m ∈ db ∧ ¬(m.expires_at < now)) ∧
    (∀ m ∈ db, m.expires_at < now → m ∉ RelayStore.cleanup_expired db now) := by
  have hmem : ∀ m, m ∈ RelayStore.pickup db recipient since now ↔
      m ∈ db ∧ m.recipient_fingerprint = recipient ∧
        m.deposited_at > since ∧ m.expires_at > now := by
    intro m
    unfold RelayStore.pickup
    rw [List.mem_mergeSort, List.mem_filter]
    simp
  have hclean : ∀ m, m ∈ RelayStore.cleanup_expired db now ↔
      m ∈ db ∧ ¬(m.expires_at < now) := by
    intro m
    unfold RelayStore.cleanup_expired
    rw [List.mem_filter]
    simp
  refine ⟨hmem, ?_, ?_, hclean, ?_⟩
  · unfold RelayStore.pickup
    refine List.Pairwise.imp ?_
      (List.sorted_mergeSort ?_ ?_
        (db.filter (fun r => r.recipient_fingerprint = recipient ∧
          r.deposited_at > since ∧ r.expires_at > now)))
    · intro a b h
      simpa using h
    · intro a b c hab hbc
      simp only [decide_eq_true_eq] at hab hbc ⊢
      omega
    · intro a b
      simp only [Bool.or_eq_true, decide_eq_true_eq]
      omega
  · intro m hm hexp hpick
    have := ((hmem m).mp hpick).2.2.2
    omega
  · intro m hm hexp hmem2
    have := ((hclean m).mp hmem2).2
    exact this hexp

/-- Witness for C5: a live message is picked up, an expired one is neither
picked up nor kept by cleanup. -/
theorem c5_witness :
    (⟨"m1", "R", "S", "b", "g", 5, 100⟩ : HeldMessage) ∈
      RelayStore.pickup
        [⟨"m1", "R", "S", "b", "g", 5, 100⟩, ⟨"m2", "R", "S", "b", "g", 3, 7⟩]
        "R" 0 50 ∧
    (⟨"m2", "R", "S", "b", "g", 3, 7⟩ : HeldMessage) ∉
      RelayStore.pickup
        [⟨"m1", "R", "S", "b", "g", 5, 100⟩, ⟨"m2", "R", "S", "b", "g", 3, 7⟩]
        "R" 0 50 ∧
    (⟨"m2", "R", "S", "b", "g", 3, 7⟩ : HeldMessage) ∉
      RelayStore.cleanup_expired
        [⟨"m1", "R", "S", "b", "g", 5, 100⟩, ⟨"m2", "R", "S", "b", "g", 3, 7⟩]
        50 :=
  ⟨((c5_pickup_cleanup
      [⟨"m1", "R", "S", "b", "g", 5, 100⟩, ⟨"m2", "R", "S", "b", "g", 3, 7⟩]
      "R" 0 50).1 ⟨"m1", "R", "S", "b", "g", 5, 100⟩).mpr (by decide),
   (c5_pickup_cleanup
      [⟨"m1", "R", "S", "b", "g", 5, 100⟩, ⟨"m2", "R", "S", "b", "g", 3, 7⟩]
      "R" 0 50).2.2.1 ⟨"m2", "R", "S", "b", "g", 3, 7⟩ (by decide) (by decide),
   (c5_pickup_cleanup
      [⟨"m1", "R", "S", "b", "g", 5, 100⟩, ⟨"m2", "R", "S", "b", "g", 3, 7⟩]
      "R" 0 50).2.2.2.2 ⟨"m2", "R", "S", "b", "g", 3, 7⟩ (by decide) (by decide)⟩

end AgentMail
